import Mathlib

/-!
Verification of the phase-tracking core of this repository.

The development shallowly embeds three source components:
* `Planning` — the `PhaseTracker` state machine and the `parsePhaseNew`
  planning-document parser (src/unnamed/part_011, i.e. the planning
  phase-tracker module), together with `PHASE_RETRY_LIMIT` from
  src/src/core/planning/utils.ts;
* `AssistantMessage` — the `PhaseTracker` of
  src/src/core/assistant-message/phase-tracker.ts (subtask bookkeeping);
* `Unified` — the `ImprovedPhaseTracker` parallel scheduler of
  src/unnamed/part_001 (unified-phase-tracker.ts).

JavaScript arrays become `List`, `undefined`-able fields become `Option`,
`Date.now()` becomes an explicit `now : Int` argument, thrown exceptions
become `Except String`, and in-place mutation of the element returned by
`Array.prototype.find` becomes `updateFirst` (update of the first element
matching the predicate).  File-system effects (checkpoint persistence) are
modelled by a pure `Checkpoint` record: `saveCheckpoint` produces the record
that the source serializes to JSON, `fromCheckpoint` rebuilds a tracker from
it, and JSON round-tripping of these plain-data fields is the identity.
-/

/-- Update the first element of a list satisfying `p` by `f`
(the pure counterpart of mutating the object returned by
JavaScript `Array.prototype.find`). -/
def updateFirst {α : Type} (p : α → Bool) (f : α → α) : List α → List α
  | [] => []
  | a :: as => if p a then f a :: as else a :: updateFirst p f as

/-- Update the element at position `i` of a list by `f`
(the pure counterpart of mutating `arr[i]`). -/
def listModify {α : Type} (f : α → α) : Nat → List α → List α
  | _, [] => []
  | 0, a :: as => f a :: as
  | n + 1, a :: as => a :: listModify f n as

/-- JavaScript `x || d` on an optional number: `undefined` and `0` are falsy. -/
def jsOr (o : Option Int) (d : Int) : Int :=
  match o with
  | none => d
  | some n => if n = 0 then d else n

namespace Planning

/-- `PhaseStatus` enum of the planning phase-tracker module. -/
inductive PhaseStatus where
  | pending
  | inProgress
  | completed
  | skipped
  | failed
deriving Repr, DecidableEq

/-- `RequirementItem` interface. -/
structure RequirementItem where
  id : String
  description : String
deriving Repr, DecidableEq

/-- `Subtask` interface: one checklist item. -/
structure Subtask where
  index : Int
  description : String
  completed : Bool
deriving Repr, DecidableEq

/-- `ProjectOverview` interface (fields the tracker carries around;
the remaining optional fields are never read by the embedded operations). -/
structure ProjectOverview where
  title : Option String := none
  projectVision : List String := []
deriving Repr, DecidableEq

/-- Requirements attached to a phase (`requirements` field of `Phase`). -/
structure PhaseRequirements where
  list : List RequirementItem
  note : Option String
deriving Repr, DecidableEq

/-- `Phase` interface of the planning module (the fields read or written by
the embedded tracker operations; the remaining legacy fields are never
touched by them). -/
structure Phase where
  phaseIdx : Int
  title : String
  exeOrderIdx : Int
  dependencies : List String := []
  explain : List String := []
  requirements : Option PhaseRequirements := none
  objectives : List String := []
  deliverables : List String := []
  completionCriteria : Option (List Subtask) := none
  validationChecklist : Option (List Subtask) := none
  handoffChecklist : Option (List Subtask) := none
  originalRequirementsValidations : Option (List Subtask) := none
  finalDeliverables : Option (List Subtask) := none
deriving Repr, DecidableEq

/-- `PhaseState` interface: runtime wrapper of one phase. -/
structure PhaseState where
  index : Int
  taskId : Option String := none
  projOverview : Option ProjectOverview := none
  executionPlan : Option String := none
  phase : Option Phase := none
  status : PhaseStatus
  startTime : Option Int := none
  endTime : Option Int := none
  retryCount : Option Int := none
  startCheckpointHash : Option String := none
deriving Repr, DecidableEq

/-- The `PhaseTracker` class state (planning module). -/
structure PhaseTracker where
  projOverview : String
  executionPlan : String
  parsedProjOverview : ProjectOverview
  phaseStates : List PhaseState
  currentPhaseIndex : Nat
  isRestored : Bool
deriving Repr, DecidableEq

/-- `PHASE_RETRY_LIMIT` from src/src/core/planning/utils.ts. -/
def PHASE_RETRY_LIMIT : Int := 2

/-- The `PhaseTracker` constructor: `parsedOv` is the result of
`parseProjectOverviewSection` (or its catch-block fallback) applied to
`projOverview`, and `now` is `Date.now()`.  It pushes the single synthetic
"Plan Phase" state at position 0. -/
def mkPhaseTracker (projOverview executionPlan : String)
    (parsedOv : ProjectOverview) (now : Int) : PhaseTracker :=
  { projOverview := projOverview
    executionPlan := executionPlan
    parsedProjOverview := parsedOv
    phaseStates := [{
      index := 0
      taskId := some ""
      projOverview := some parsedOv
      executionPlan := some executionPlan
      phase := some { phaseIdx := 0, title := "Plan Phase", exeOrderIdx := 0 }
      status := PhaseStatus.pending
      startTime := some now
      retryCount := some 0 }]
    currentPhaseIndex := 0
    isRestored := false }

/-- `addPhasesFromPlan`: append one `Pending` `PhaseState` per parsed phase. -/
def PhaseTracker.addPhasesFromPlan (t : PhaseTracker) (parsedPhases : List Phase) :
    PhaseTracker :=
  { t with phaseStates := t.phaseStates ++ parsedPhases.map (fun p =>
      { index := p.phaseIdx
        taskId := some ""
        phase := some p
        status := PhaseStatus.pending
        startTime := none
        endTime := none
        retryCount := some 0 }) }

/-- `isAllComplete`: every `PhaseState` (position 0 included) is
`Completed` or `Skipped`. -/
def PhaseTracker.isAllComplete (t : PhaseTracker) : Bool :=
  t.phaseStates.all fun p =>
    p.status == PhaseStatus.completed || p.status == PhaseStatus.skipped

/-- `getPhaseCompletionAction` returning the source's string union
`"all_complete" | "partial_complete" | "non_phase"`. -/
def PhaseTracker.getPhaseCompletionAction (t : PhaseTracker) : String :=
  if t.isAllComplete then "all_complete"
  else if t.currentPhaseIndex < t.phaseStates.length - 1 then "partial_complete"
  else "non_phase"

/-- `hasNextPhase`: some `PhaseState` strictly after the cursor is `Pending`. -/
def PhaseTracker.hasNextPhase (t : PhaseTracker) : Bool :=
  (t.phaseStates.drop (t.currentPhaseIndex + 1)).any fun p =>
    p.status == PhaseStatus.pending

/-- `updatePhase`: bounds-check, then increment the cursor and mark the
phase now under the cursor `InProgress` with `startTime = now`. -/
def PhaseTracker.updatePhase (t : PhaseTracker) (now : Int) :
    Except String PhaseTracker :=
  if t.currentPhaseIndex ≥ t.phaseStates.length - 1 then
    Except.error "Cannot advance beyond last phase"
  else
    Except.ok { t with
      currentPhaseIndex := t.currentPhaseIndex + 1
      phaseStates := listModify
        (fun ps => { ps with status := PhaseStatus.inProgress, startTime := some now })
        (t.currentPhaseIndex + 1) t.phaseStates }

/-- `getCurrentPhaseRetryCount`: `ps?.retryCount || 0`. -/
def PhaseTracker.getCurrentPhaseRetryCount (t : PhaseTracker) : Int :=
  jsOr ((t.phaseStates.get? t.currentPhaseIndex).bind (·.retryCount)) 0

/-- `canRetryCurrentPhase`: `retryCount < PHASE_RETRY_LIMIT`. -/
def PhaseTracker.canRetryCurrentPhase (t : PhaseTracker) : Bool :=
  t.getCurrentPhaseRetryCount < PHASE_RETRY_LIMIT

/-- `retryCurrentPhase`: throws when no `PhaseState` sits under the cursor;
otherwise increments `retryCount`, resets the status to `Pending` and clears
`startTime`/`endTime`/`startCheckpointHash` — with no retry-limit check. -/
def PhaseTracker.retryCurrentPhase (t : PhaseTracker) :
    Except String PhaseTracker :=
  match t.phaseStates.get? t.currentPhaseIndex with
  | none => Except.error "Invalid phase index during retry"
  | some _ => Except.ok { t with
      phaseStates := listModify
        (fun ps => { ps with
          retryCount := some (ps.retryCount.getD 0 + 1)
          status := PhaseStatus.pending
          startTime := none
          endTime := none
          startCheckpointHash := none })
        t.currentPhaseIndex t.phaseStates }

/-- Mark every item of an optional checklist completed
(`markChecklistDone` inside `completePhase`). -/
def markChecklistDone (subs : Option (List Subtask)) : Option (List Subtask) :=
  subs.map (List.map fun s => { s with completed := true })

/-- The checklist cascade of `completePhase` applied to one `Phase`. -/
def completeAllChecklists (p : Phase) : Phase :=
  let p1 := { p with
    completionCriteria := markChecklistDone p.completionCriteria
    validationChecklist := markChecklistDone p.validationChecklist
    handoffChecklist := markChecklistDone p.handoffChecklist }
  if p1.originalRequirementsValidations.isSome || p1.finalDeliverables.isSome then
    { p1 with
      originalRequirementsValidations := markChecklistDone p1.originalRequirementsValidations
      finalDeliverables := markChecklistDone p1.finalDeliverables }
  else p1

/-- `completePhase(phaseId)`: no-op when no `PhaseState` has `index = phaseId`;
otherwise cascade-complete the checklists of the first match, set its status
`Completed` and stamp `endTime`. -/
def PhaseTracker.completePhase (t : PhaseTracker) (phaseId : Int) (now : Int) :
    PhaseTracker :=
  match t.phaseStates.find? (fun p => p.index == phaseId) with
  | none => t
  | some _ => { t with
      phaseStates := updateFirst (fun p => p.index == phaseId)
        (fun ps => { ps with
          phase := ps.phase.map completeAllChecklists
          status := PhaseStatus.completed
          endTime := some now })
        t.phaseStates }

/-- `updateTaskIdPhase(phaseId, taskId)`: no-op when no `PhaseState` has
`index = phaseId`; otherwise set the first match's `taskId`. -/
def PhaseTracker.updateTaskIdPhase (t : PhaseTracker) (phaseId : Int)
    (taskId : String) : PhaseTracker :=
  match t.phaseStates.find? (fun p => p.index == phaseId) with
  | none => t
  | some _ => { t with
      phaseStates := updateFirst (fun p => p.index == phaseId)
        (fun ps => { ps with taskId := some taskId }) t.phaseStates }

/-- The checkpoint document written by `saveCheckpoint`
(`phase-checkpoint.json`). -/
structure Checkpoint where
  projOverview : String
  parsedProjOverview : ProjectOverview
  executionPlan : String
  phaseStates : List PhaseState
  currentPhaseIndex : Nat
deriving Repr, DecidableEq

/-- `saveCheckpoint`: the data the source serializes to the checkpoint file. -/
def PhaseTracker.saveCheckpoint (t : PhaseTracker) : Checkpoint :=
  { projOverview := t.projOverview
    parsedProjOverview := t.parsedProjOverview
    executionPlan := t.executionPlan
    phaseStates := t.phaseStates
    currentPhaseIndex := t.currentPhaseIndex }

/-- `fromCheckpoint`: rebuild a tracker from a checkpoint document.
`parsedOv` is the constructor's parse of `cp.projOverview` (immediately
overwritten by the checkpoint's own `parsedProjOverview`), `now` the
constructor's `Date.now()`. -/
def fromCheckpoint (cp : Checkpoint) (parsedOv : ProjectOverview) (now : Int) :
    PhaseTracker :=
  let tracker := mkPhaseTracker cp.projOverview cp.executionPlan parsedOv now
  { tracker with
    parsedProjOverview := cp.parsedProjOverview
    phaseStates := cp.phaseStates
    currentPhaseIndex := cp.currentPhaseIndex
    isRestored := true }

/-- The spec's wording of "all complete", for comparison with the code's
`isAllComplete`: every non-synthetic `PhaseState` (index other than 0) is
`Completed` or `Skipped`. -/
def specAllComplete (t : PhaseTracker) : Bool :=
  t.phaseStates.all fun p =>
    p.index == 0 || (p.status == PhaseStatus.completed || p.status == PhaseStatus.skipped)

end Planning

namespace Planning

/-- All-complete as a Bool unfolds to the pointwise terminal-status property. -/
theorem isAllComplete_iff (t : PhaseTracker) :
    t.isAllComplete = true ↔
      ∀ ps ∈ t.phaseStates,
        ps.status = PhaseStatus.completed ∨ ps.status = PhaseStatus.skipped := by
  simp [PhaseTracker.isAllComplete, List.all_eq_true]

end Planning

/-- C1 amended: `getPhaseCompletionAction` returns `all_complete` exactly when
every `PhaseState` (the synthetic phase-0 included) is `Completed` or
`Skipped`; otherwise it returns `partial_complete` exactly when the cursor is
strictly before the last position — regardless of whether any `Pending` phase
follows — and `non_phase` exactly when the cursor is at (or beyond) the last
position, regardless of whether that phase is terminal. -/
theorem Planning.getPhaseCompletionAction_trichotomy (t : Planning.PhaseTracker) :
    (t.getPhaseCompletionAction = "all_complete" ↔
      ∀ ps ∈ t.phaseStates,
        ps.status = PhaseStatus.completed ∨ ps.status = PhaseStatus.skipped) ∧
    (t.getPhaseCompletionAction = "partial_complete" ↔
      ¬ (∀ ps ∈ t.phaseStates,
          ps.status = PhaseStatus.completed ∨ ps.status = PhaseStatus.skipped) ∧
        t.currentPhaseIndex < t.phaseStates.length - 1) ∧
    (t.getPhaseCompletionAction = "non_phase" ↔
      ¬ (∀ ps ∈ t.phaseStates,
          ps.status = PhaseStatus.completed ∨ ps.status = PhaseStatus.skipped) ∧
        ¬ t.currentPhaseIndex < t.phaseStates.length - 1) := by
  have hall := Planning.isAllComplete_iff t
  unfold PhaseTracker.getPhaseCompletionAction
  cases hA : t.isAllComplete with
  | true =>
    have h := hall.mp hA
    rw [if_pos rfl]
    exact ⟨⟨fun _ => h, fun _ => rfl⟩,
      ⟨fun hs => absurd hs (by decide), fun hp => absurd h hp.1⟩,
      ⟨fun hs => absurd hs (by decide), fun hp => absurd h hp.1⟩⟩
  | false =>
    have hnot : ¬ (∀ ps ∈ t.phaseStates,
        ps.status = PhaseStatus.completed ∨ ps.status = PhaseStatus.skipped) := by
      intro h
      rw [hall.mpr h] at hA
      exact absurd hA (by decide)
    simp only [Bool.false_eq_true, if_false]
    by_cases hc : t.currentPhaseIndex < t.phaseStates.length - 1
    · rw [if_pos hc]
      refine ⟨⟨fun hs => absurd hs (by decide), fun hfa => absurd hfa hnot⟩,
        ⟨fun _ => ⟨hnot, hc⟩, fun _ => rfl⟩,
        ⟨fun hs => absurd hs (by decide), fun hp => absurd hc hp.2⟩⟩
    · rw [if_neg hc]
      refine ⟨⟨fun hs => absurd hs (by decide), fun hfa => absurd hfa hnot⟩,
        ⟨fun hs => absurd hs (by decide), fun hp => absurd hp.2 hc⟩,
        ⟨fun _ => ⟨hnot, hc⟩, fun _ => rfl⟩⟩

/-- A tracker whose two phases are `Completed` and `Failed`, cursor at 0:
no `Pending` phase follows the cursor. -/
def Planning.trackerCFdef : Planning.PhaseTracker :=
  { projOverview := "o", executionPlan := "p", parsedProjOverview := {}
    phaseStates :=
      [{ index := 0, status := Planning.PhaseStatus.completed },
       { index := 1, status := Planning.PhaseStatus.failed }]
    currentPhaseIndex := 0, isRestored := false }

/-- A tracker whose phases are `Pending` then `Completed`, cursor at the last
position: the last phase is terminal. -/
def Planning.trackerPCdef : Planning.PhaseTracker :=
  { projOverview := "o", executionPlan := "p", parsedProjOverview := {}
    phaseStates :=
      [{ index := 0, status := Planning.PhaseStatus.pending },
       { index := 1, status := Planning.PhaseStatus.completed }]
    currentPhaseIndex := 1, isRestored := false }

/-- C1 counterexample: on `trackerCFdef` the action is `partial_complete`
although no `Pending` phase exists after the cursor (`hasNextPhase` is
false), and on `trackerPCdef` the action is `non_phase` although the phase
under the cursor — the last one — is already terminal (`Completed`). -/
theorem Planning.getPhaseCompletionAction_claim_false :
    (Planning.trackerCFdef.getPhaseCompletionAction = "partial_complete" ∧
      Planning.trackerCFdef.hasNextPhase = false) ∧
    (Planning.trackerPCdef.getPhaseCompletionAction = "non_phase" ∧
      (Planning.trackerPCdef.phaseStates.get? Planning.trackerPCdef.currentPhaseIndex).map
          (·.status) = some Planning.PhaseStatus.completed) := by
  exact ⟨⟨rfl, rfl⟩, ⟨rfl, rfl⟩⟩

/-- C2 amended: `isAllComplete` is true exactly when every `PhaseState` —
including the synthetic phase-0 planning entry — has status `Completed` or
`Skipped`; the synthetic phase's status does participate in the result. -/
theorem Planning.isAllComplete_includes_synthetic (t : Planning.PhaseTracker) :
    t.isAllComplete = true ↔
      ∀ ps ∈ t.phaseStates,
        ps.status = PhaseStatus.completed ∨ ps.status = PhaseStatus.skipped :=
  Planning.isAllComplete_iff t

/-- A tracker reached by constructing, registering one phase and completing
it: the synthetic phase-0 is still `Pending` while every non-synthetic phase
is `Completed`. -/
def Planning.trackerSynthPending : Planning.PhaseTracker :=
  ((Planning.mkPhaseTracker "o" "p" {} 0).addPhasesFromPlan
    [{ phaseIdx := 1, title := "P1", exeOrderIdx := 1 }]).completePhase 1 5

/-- C2 counterexample: on `trackerSynthPending` every non-synthetic
`PhaseState` is terminal (the spec-worded predicate holds), yet
`isAllComplete` is false because the synthetic phase-0 is still `Pending`. -/
theorem Planning.isAllComplete_claim_false :
    Planning.specAllComplete Planning.trackerSynthPending = true ∧
    Planning.trackerSynthPending.isAllComplete = false := by
  exact ⟨rfl, rfl⟩

/-- C8 amended: the constructor creates exactly one synthetic `PhaseState`,
at position 0 with phase index 0 and title "Plan Phase", whose status is
`Pending` (not `InProgress`), with `startTime` stamped, zero retries, and the
cursor at 0. -/
theorem Planning.mkPhaseTracker_initial_state (ov plan : String)
    (pov : Planning.ProjectOverview) (now : Int) :
    (Planning.mkPhaseTracker ov plan pov now).phaseStates.length = 1 ∧
    (Planning.mkPhaseTracker ov plan pov now).currentPhaseIndex = 0 ∧
    ((Planning.mkPhaseTracker ov plan pov now).phaseStates.map fun ps =>
        (ps.index, ps.status, ps.startTime, ps.retryCount,
          ps.phase.map (fun p => (p.phaseIdx, p.title, p.exeOrderIdx)))) =
      [(0, Planning.PhaseStatus.pending, some now, some 0,
        some (0, "Plan Phase", 0))] := by
  exact ⟨rfl, rfl, rfl⟩

/-- C8 counterexample: a freshly constructed tracker's only phase has status
`Pending`, which is not the `InProgress` status the claim asserts. -/
theorem Planning.mkPhaseTracker_status_not_inProgress :
    (Planning.mkPhaseTracker "o" "p" {} 3).phaseStates.map (·.status) =
      [Planning.PhaseStatus.pending] ∧
    Planning.PhaseStatus.pending ≠ Planning.PhaseStatus.inProgress := by
  exact ⟨rfl, by decide⟩

/-- `listModify` preserves the length of the list. -/
theorem listModify_length {α : Type} (f : α → α) (i : Nat) (l : List α) :
    (listModify f i l).length = l.length := by
  induction l generalizing i with
  | nil => cases i <;> rfl
  | cons a as ih =>
    cases i with
    | zero => rfl
    | succ n => simpa [listModify] using ih n

/-- `listModify` applies `f` at the modified position. -/
theorem listModify_get_eq {α : Type} (f : α → α) (i : Nat) (l : List α) :
    (listModify f i l).get? i = (l.get? i).map f := by
  induction l generalizing i with
  | nil => cases i <;> rfl
  | cons a as ih =>
    cases i with
    | zero => rfl
    | succ n => simpa [listModify] using ih n

/-- `listModify` leaves every other position unchanged. -/
theorem listModify_get_ne {α : Type} (f : α → α) (i : Nat) (l : List α)
    (j : Nat) (h : j ≠ i) : (listModify f i l).get? j = l.get? j := by
  induction l generalizing i j with
  | nil => cases i <;> rfl
  | cons a as ih =>
    cases i with
    | zero =>
      cases j with
      | zero => exact absurd rfl h
      | succ m => rfl
    | succ n =>
      cases j with
      | zero => rfl
      | succ m =>
        simpa [listModify] using ih n m (fun hc => h (by rw [hc]))

/-- C3 amended: `updatePhase` fails (with "Cannot advance beyond last phase",
the state unchanged) exactly when the cursor already sits at or beyond the
last position; otherwise — whether or not `hasNextPhase()` holds — it moves
the cursor forward by exactly one position, marks the phase at that position
`InProgress` with `startTime` stamped regardless of its previous status, and
leaves every other `PhaseState` untouched. -/
theorem Planning.updatePhase_steps_one (t : Planning.PhaseTracker) (now : Int) :
    (t.phaseStates.length - 1 ≤ t.currentPhaseIndex →
      t.updatePhase now = Except.error "Cannot advance beyond last phase") ∧
    (t.currentPhaseIndex < t.phaseStates.length - 1 →
      ∃ t', t.updatePhase now = Except.ok t' ∧
        t'.currentPhaseIndex = t.currentPhaseIndex + 1 ∧
        (t'.phaseStates.get? (t.currentPhaseIndex + 1)).map (·.status) =
          some Planning.PhaseStatus.inProgress ∧
        (t'.phaseStates.get? (t.currentPhaseIndex + 1)).map (·.startTime) =
          some (some now) ∧
        (∀ j, j ≠ t.currentPhaseIndex + 1 →
          t'.phaseStates.get? j = t.phaseStates.get? j) ∧
        t'.phaseStates.length = t.phaseStates.length) := by
  constructor
  · intro h
    unfold PhaseTracker.updatePhase
    rw [if_pos h]
  · intro h
    have hnext : t.currentPhaseIndex + 1 < t.phaseStates.length := by omega
    obtain ⟨ps, hps⟩ : ∃ ps, t.phaseStates.get? (t.currentPhaseIndex + 1) = some ps :=
      List.get?_eq_get hnext ▸ ⟨_, rfl⟩
    refine ⟨{ t with
        currentPhaseIndex := t.currentPhaseIndex + 1
        phaseStates := listModify
          (fun ps => { ps with status := PhaseStatus.inProgress, startTime := some now })
          (t.currentPhaseIndex + 1) t.phaseStates }, ?_, rfl, ?_, ?_, ?_, ?_⟩
    · unfold PhaseTracker.updatePhase
      rw [if_neg (by omega)]
    · rw [listModify_get_eq, hps]; rfl
    · rw [listModify_get_eq, hps]; rfl
    · intro j hj
      exact listModify_get_ne _ _ _ _ hj
    · exact listModify_length _ _ _

/-- A tracker with phases `Completed`, `Skipped`, `Pending` and the cursor at
0: the next `Pending` phase sits at position 2, not 1. -/
def Planning.trackerCSP : Planning.PhaseTracker :=
  { projOverview := "o", executionPlan := "p", parsedProjOverview := {}
    phaseStates :=
      [{ index := 0, status := Planning.PhaseStatus.completed },
       { index := 1, status := Planning.PhaseStatus.skipped },
       { index := 2, status := Planning.PhaseStatus.pending }]
    currentPhaseIndex := 0, isRestored := false }

/-- A tracker with phases `Completed`, `Failed` and the cursor at 0:
`hasNextPhase()` is false, yet the cursor is not at the last position. -/
def Planning.trackerCF3 : Planning.PhaseTracker :=
  { projOverview := "o", executionPlan := "p", parsedProjOverview := {}
    phaseStates :=
      [{ index := 0, status := Planning.PhaseStatus.completed },
       { index := 1, status := Planning.PhaseStatus.failed }]
    currentPhaseIndex := 0, isRestored := false }

/-- C3 counterexample: on `trackerCSP`, `hasNextPhase()` holds with the next
`Pending` phase at position 2, yet `updatePhase` moves the cursor to
position 1 — a previously `Skipped` phase — and marks it `InProgress`; and
on `trackerCF3`, `hasNextPhase()` is false yet `updatePhase` succeeds
rather than failing. -/
theorem Planning.updatePhase_claim_false :
    (Planning.trackerCSP.hasNextPhase = true ∧
      (Planning.trackerCSP.phaseStates.get? 1).map (·.status) =
        some Planning.PhaseStatus.skipped ∧
      (Planning.trackerCSP.phaseStates.get? 2).map (·.status) =
        some Planning.PhaseStatus.pending ∧
      (Planning.trackerCSP.updatePhase 7).toOption.map (·.currentPhaseIndex) =
        some 1 ∧
      ((Planning.trackerCSP.updatePhase 7).toOption.map fun t' =>
        (t'.phaseStates.get? 1).map (·.status)) =
          some (some Planning.PhaseStatus.inProgress)) ∧
    (Planning.trackerCF3.hasNextPhase = false ∧
      (Planning.trackerCF3.updatePhase 7).isOk = true) := by
  exact ⟨⟨rfl, rfl, rfl, rfl, rfl⟩, ⟨rfl, rfl⟩⟩

/-- C4 amended: `canRetryCurrentPhase()` is `retryCount < PHASE_RETRY_LIMIT`
(limit 2), but `retryCurrentPhase()` never consults it: it fails only when no
`PhaseState` sits under the cursor, and otherwise — even with the retry limit
exhausted — resets the current phase to `Pending`, clears
`startTime`/`endTime`/`startCheckpointHash` and increments `retryCount`;
enforcing the limit is left to the caller. -/
theorem Planning.retryCurrentPhase_unguarded (t : Planning.PhaseTracker) :
    (t.canRetryCurrentPhase = true ↔ t.getCurrentPhaseRetryCount < 2) ∧
    (t.phaseStates.get? t.currentPhaseIndex = none →
      t.retryCurrentPhase = Except.error "Invalid phase index during retry") ∧
    (∀ ps, t.phaseStates.get? t.currentPhaseIndex = some ps →
      ∃ t', t.retryCurrentPhase = Except.ok t' ∧
        t'.currentPhaseIndex = t.currentPhaseIndex ∧
        t'.phaseStates.get? t.currentPhaseIndex = some { ps with
          retryCount := some (ps.retryCount.getD 0 + 1)
          status := Planning.PhaseStatus.pending
          startTime := none
          endTime := none
          startCheckpointHash := none } ∧
        (∀ j, j ≠ t.currentPhaseIndex →
          t'.phaseStates.get? j = t.phaseStates.get? j) ∧
        t'.phaseStates.length = t.phaseStates.length) := by
  refine ⟨?_, ?_, ?_⟩
  · unfold PhaseTracker.canRetryCurrentPhase PHASE_RETRY_LIMIT
    exact decide_eq_true_iff
  · intro h
    unfold PhaseTracker.retryCurrentPhase
    rw [h]
  · intro ps hps
    refine ⟨{ t with
        phaseStates := listModify
          (fun ps => { ps with
            retryCount := some (ps.retryCount.getD 0 + 1)
            status := Planning.PhaseStatus.pending
            startTime := none
            endTime := none
            startCheckpointHash := none })
          t.currentPhaseIndex t.phaseStates }, ?_, rfl, ?_, ?_, ?_⟩
    · unfold PhaseTracker.retryCurrentPhase
      rw [hps]
    · rw [listModify_get_eq, hps]; rfl
    · intro j hj
      exact listModify_get_ne _ _ _ _ hj
    · exact listModify_length _ _ _

/-- A tracker whose single current phase has exhausted the retry limit
(`retryCount = 2`). -/
def Planning.trackerRetry2 : Planning.PhaseTracker :=
  { projOverview := "o", executionPlan := "p", parsedProjOverview := {}
    phaseStates :=
      [{ index := 0, status := Planning.PhaseStatus.failed, retryCount := some 2 }]
    currentPhaseIndex := 0, isRestored := false }

/-- C4 counterexample: with `retryCount = 2` the guard
`canRetryCurrentPhase()` is false, yet `retryCurrentPhase()` succeeds — it
does not fail with a retry-limit error — and mutates the state, resetting the
status to `Pending` and raising `retryCount` to 3. -/
theorem Planning.retryCurrentPhase_claim_false :
    Planning.trackerRetry2.canRetryCurrentPhase = false ∧
    Planning.trackerRetry2.retryCurrentPhase.isOk = true ∧
    (Planning.trackerRetry2.retryCurrentPhase.toOption.map fun t' =>
      (t'.phaseStates.get? 0).map fun ps => (ps.status, ps.retryCount)) =
        some (some (Planning.PhaseStatus.pending, some 3)) := by
  exact ⟨rfl, rfl, rfl⟩

/-- C5: restoring from a saved checkpoint reproduces the tracker's cursor
exactly and, phase by phase, the identical status and retry count (indeed the
identical `PhaseState` list). -/
theorem Planning.checkpoint_roundtrip (t : Planning.PhaseTracker)
    (parsedOv : Planning.ProjectOverview) (now : Int) :
    (Planning.fromCheckpoint t.saveCheckpoint parsedOv now).currentPhaseIndex =
      t.currentPhaseIndex ∧
    ((Planning.fromCheckpoint t.saveCheckpoint parsedOv now).phaseStates.map
        fun ps => (ps.status, ps.retryCount)) =
      (t.phaseStates.map fun ps => (ps.status, ps.retryCount)) ∧
    (Planning.fromCheckpoint t.saveCheckpoint parsedOv now).phaseStates =
      t.phaseStates := by
  exact ⟨rfl, rfl, rfl⟩

/-- Witness for the amended C3 statement: both branches of
`updatePhase_steps_one` evaluated at concrete trackers. -/
theorem Planning.updatePhase_steps_one_witness :
    (({ Planning.trackerCSP with currentPhaseIndex := 2 }).updatePhase 7 =
      Except.error "Cannot advance beyond last phase") ∧
    Planning.trackerCSP.currentPhaseIndex <
      Planning.trackerCSP.phaseStates.length - 1 ∧
    (∃ t', Planning.trackerCSP.updatePhase 7 = Except.ok t' ∧
      t'.currentPhaseIndex = Planning.trackerCSP.currentPhaseIndex + 1 ∧
      (t'.phaseStates.get? (Planning.trackerCSP.currentPhaseIndex + 1)).map
          (·.status) = some Planning.PhaseStatus.inProgress ∧
      (t'.phaseStates.get? (Planning.trackerCSP.currentPhaseIndex + 1)).map
          (·.startTime) = some (some 7) ∧
      (∀ j, j ≠ Planning.trackerCSP.currentPhaseIndex + 1 →
        t'.phaseStates.get? j = Planning.trackerCSP.phaseStates.get? j) ∧
      t'.phaseStates.length = Planning.trackerCSP.phaseStates.length) :=
  ⟨(Planning.updatePhase_steps_one { Planning.trackerCSP with currentPhaseIndex := 2 } 7).1
      (by decide),
    by decide,
    (Planning.updatePhase_steps_one Planning.trackerCSP 7).2 (by decide)⟩

/-- The single `PhaseState` of `trackerRetry2`. -/
def Planning.psRetry2 : Planning.PhaseState :=
  { index := 0, status := Planning.PhaseStatus.failed, retryCount := some 2 }

/-- Witness for the amended C4 statement: all three conjuncts of
`retryCurrentPhase_unguarded` evaluated at concrete trackers. -/
theorem Planning.retryCurrentPhase_unguarded_witness :
    (Planning.trackerRetry2.canRetryCurrentPhase = true ↔
      Planning.trackerRetry2.getCurrentPhaseRetryCount < 2) ∧
    (({ Planning.trackerRetry2 with currentPhaseIndex := 5 }).retryCurrentPhase =
      Except.error "Invalid phase index during retry") ∧
    (∃ t', Planning.trackerRetry2.retryCurrentPhase = Except.ok t' ∧
      t'.currentPhaseIndex = Planning.trackerRetry2.currentPhaseIndex ∧
      t'.phaseStates.get? Planning.trackerRetry2.currentPhaseIndex =
        some { Planning.psRetry2 with
          retryCount := some 3
          status := Planning.PhaseStatus.pending
          startTime := none
          endTime := none
          startCheckpointHash := none } ∧
      (∀ j, j ≠ Planning.trackerRetry2.currentPhaseIndex →
        t'.phaseStates.get? j = Planning.trackerRetry2.phaseStates.get? j) ∧
      t'.phaseStates.length = Planning.trackerRetry2.phaseStates.length) :=
  ⟨(Planning.retryCurrentPhase_unguarded Planning.trackerRetry2).1,
    (Planning.retryCurrentPhase_unguarded
      { Planning.trackerRetry2 with currentPhaseIndex := 5 }).2.1 (by decide),
    (Planning.retryCurrentPhase_unguarded Planning.trackerRetry2).2.2
      Planning.psRetry2 (by decide)⟩

namespace AssistantMessage

/-- `Subtask` interface of phase-tracker.ts. -/
structure Subtask where
  index : Int
  description : String
  completed : Bool
deriving Repr, DecidableEq

/-- `Phase` interface of phase-tracker.ts. -/
structure Phase where
  index : Int
  phase_prompt : Option String := none
  title : String
  description : Option String := none
  paths : List String := []
  subtasks : List Subtask := []
  complete : Bool
deriving Repr, DecidableEq

/-- `SubtaskState` interface of phase-tracker.ts. -/
structure SubtaskState where
  index : Int
  subtask : Subtask
  result : Option String := none
  startTime : Option Int := none
  endTime : Option Int := none
deriving Repr, DecidableEq

/-- `PhaseState` interface of phase-tracker.ts.  The status union
`PhaseStatus | "in-progress" | "completed" | "skipped"` is kept as the
source's strings. -/
structure PhaseState where
  index : Int
  origin_prompt : Option String := none
  phase : Option Phase := none
  subtasks : List SubtaskState
  complete : Bool
  status : String
  startTime : Option Int := none
  endTime : Option Int := none
deriving Repr, DecidableEq

/-- `PhaseResult` interface of phase-tracker.ts.  The `subtaskResults`
record (JS object keyed by subtask index) is modelled as an association
list updated with JS-object overwrite semantics. -/
structure PhaseResult where
  phaseId : Int
  summary : String
  subtaskResults : List (Int × String)
  executionTime : Int
deriving Repr, DecidableEq

/-- The fields of the `PhaseTracker` class of phase-tracker.ts that its
subtask/phase-completion operations read or write (checkpoint and listener
plumbing carries no tracker state relevant here). -/
structure Tracker where
  phaseStates : List PhaseState
  currentPhaseIndex : Nat
  phaseResults : List PhaseResult
deriving Repr, DecidableEq

/-- JS `{ ...acc, [k]: v }` on an object: overwrite the value of an
existing key, append a missing one. -/
def jsUpsert : List (Int × String) → Int → String → List (Int × String)
  | [], k, v => [(k, v)]
  | (k', v') :: rest, k, v =>
    if k' == k then (k', v) :: rest else (k', v') :: jsUpsert rest k v

/-- The per-subtask mutation of `completePhase`: complete an incomplete
subtask, and stamp `endTime` when it is still unset (`endTime || Date.now()`,
so a zero timestamp is also replaced). -/
def completeSubtaskStates (now : Int) (sts : List SubtaskState) : List SubtaskState :=
  sts.map fun st =>
    let st1 := if !st.subtask.completed
      then { st with subtask := { st.subtask with completed := true } } else st
    { st1 with endTime := some (jsOr st1.endTime now) }

/-- The fully completed `PhaseState` that `completePhase` leaves behind. -/
def completedPhaseState (now : Int) (ph : PhaseState) : PhaseState :=
  { ph with
    subtasks := completeSubtaskStates now ph.subtasks
    complete := true
    status := "completed"
    endTime := some now }

/-- `completePhase(phaseId, summary)`: no-op when no `PhaseState` has
`index = phaseId`; otherwise cascade-complete every subtask of the first
match, mark it `completed`, and append a `PhaseResult`. -/
def completePhase (t : Tracker) (phaseId : Int) (summary : String) (now : Int) :
    Tracker :=
  match t.phaseStates.find? (fun p => p.index == phaseId) with
  | none => t
  | some ph =>
    let ph' := completedPhaseState now ph
    let result : PhaseResult := {
      phaseId := phaseId
      summary := summary
      subtaskResults := ph'.subtasks.foldl
        (fun acc st => jsUpsert acc st.index (st.result.getD "")) []
      executionTime := jsOr ph'.endTime now - jsOr ph'.startTime 0 }
    { t with
      phaseStates := updateFirst (fun p => p.index == phaseId)
        (fun _ => ph') t.phaseStates
      phaseResults := t.phaseResults ++ [result] }

/-- The mutation `completeSubtask` applies to the found `SubtaskState`. -/
def markSubtaskDone (result : Option String) (now : Int) (st : SubtaskState) :
    SubtaskState :=
  { st with
    subtask := { st.subtask with completed := true }
    result := result
    endTime := some now }

/-- `completeSubtask(phaseId, subtaskId, result?)`: no-op when the phase or
the subtask is unknown; otherwise mark the subtask completed and, when every
subtask of the phase is then completed, automatically `completePhase`. -/
def completeSubtask (t : Tracker) (phaseId subtaskId : Int)
    (result : Option String) (now : Int) : Tracker :=
  match t.phaseStates.find? (fun p => p.index == phaseId) with
  | none => t
  | some ph =>
    match ph.subtasks.find? (fun s => s.index == subtaskId) with
    | none => t
    | some _ =>
      let ph' := { ph with
        subtasks := updateFirst (fun s => s.index == subtaskId)
          (markSubtaskDone result now) ph.subtasks }
      let t' := { t with
        phaseStates := updateFirst (fun p => p.index == phaseId)
          (fun _ => ph') t.phaseStates }
      if ph'.subtasks.all (fun s => s.subtask.completed) then
        completePhase t' ph.index "" now
      else t'

end AssistantMessage

/-- Replacing the first `p`-element of a list (found to be `a`) by a value
that still satisfies `p` makes `find?` return that value. -/
theorem updateFirst_replace_find? {α : Type} (p : α → Bool) (b : α) (l : List α)
    (a : α) (h : l.find? p = some a) (hb : p b = true) :
    (updateFirst p (fun _ => b) l).find? p = some b := by
  induction l with
  | nil => simp at h
  | cons x xs ih =>
    by_cases hx : p x = true
    · rw [updateFirst, if_pos hx]
      exact List.find?_cons_of_pos _ hb
    · rw [updateFirst, if_neg hx]
      rw [List.find?_cons_of_neg _ (by simpa using hx)]
      rw [List.find?_cons_of_neg _ (by simpa using hx)] at h
      exact ih h

namespace AssistantMessage

/-- After `completePhase`'s cascade, every subtask is completed. -/
theorem completeSubtaskStates_all (now : Int) (sts : List SubtaskState) :
    ∀ st ∈ completeSubtaskStates now sts, st.subtask.completed = true := by
  intro st hmem
  unfold completeSubtaskStates at hmem
  obtain ⟨st0, -, rfl⟩ := List.mem_map.mp hmem
  by_cases h : st0.subtask.completed = true <;> simp [h]

/-- `completePhase` on a phase that is found: the first matching
`PhaseState` becomes its completed version and exactly one `PhaseResult`
is appended. -/
theorem completePhase_found (t : Tracker) (pid : Int) (summary : String)
    (now : Int) (ph : PhaseState)
    (hph : t.phaseStates.find? (fun p => p.index == pid) = some ph) :
    (completePhase t pid summary now).phaseStates.find?
        (fun p => p.index == pid) = some (completedPhaseState now ph) ∧
    (completePhase t pid summary now).phaseResults.length =
      t.phaseResults.length + 1 := by
  have hpe : ph.index = pid := by simpa using List.find?_some hph
  unfold completePhase
  rw [hph]
  dsimp only
  constructor
  · exact updateFirst_replace_find? _ _ _ _ hph (by simp [completedPhaseState, hpe])
  · simp

end AssistantMessage

/-- C9: whenever `completeSubtask` finds its phase and subtask and marking
that subtask leaves every subtask of the phase completed, the phase is
automatically transitioned to completed — `complete` set, status
`"completed"`, all subtasks completed, and exactly one `PhaseResult`
appended — with no separate completion call. -/
theorem AssistantMessage.completeSubtask_autocompletes
    (t : AssistantMessage.Tracker) (pid sid : Int) (res : Option String)
    (now : Int) (ph : AssistantMessage.PhaseState)
    (hph : t.phaseStates.find? (fun p => p.index == pid) = some ph)
    (hst : (ph.subtasks.find? (fun s => s.index == sid)).isSome = true)
    (hall : ∀ st ∈ updateFirst (fun s => s.index == sid)
        (AssistantMessage.markSubtaskDone res now) ph.subtasks,
      st.subtask.completed = true) :
    ∃ ph', (AssistantMessage.completeSubtask t pid sid res now).phaseStates.find?
        (fun p => p.index == pid) = some ph' ∧
      ph'.complete = true ∧ ph'.status = "completed" ∧
      (∀ st ∈ ph'.subtasks, st.subtask.completed = true) ∧
      (AssistantMessage.completeSubtask t pid sid res now).phaseResults.length =
        t.phaseResults.length + 1 := by
  obtain ⟨st0, hst0⟩ := Option.isSome_iff_exists.mp hst
  have hpe : ph.index = pid := by simpa using List.find?_some hph
  have hpid : (ph.index == pid) = true := beq_iff_eq.mpr hpe
  obtain ⟨ph1, hph1⟩ : ∃ x, x = { ph with subtasks := updateFirst (fun s => s.index == sid) (AssistantMessage.markSubtaskDone res now) ph.subtasks } := ⟨_, rfl⟩
  obtain ⟨t1, ht1⟩ : ∃ x, x = { t with phaseStates := updateFirst (fun p => p.index == pid) (fun _ => ph1) t.phaseStates } := ⟨_, rfl⟩
  have hcond : ph1.subtasks.all (fun s => s.subtask.completed) = true := by
    rw [hph1]
    exact List.all_eq_true.mpr fun st hmem => hall st hmem
  have hstep : AssistantMessage.completeSubtask t pid sid res now =
      AssistantMessage.completePhase t1 pid "" now := by
    unfold AssistantMessage.completeSubtask
    rw [hph]
    dsimp only
    rw [hst0]
    dsimp only
    rw [hph1] at hcond
    rw [if_pos hcond, ht1, hph1, hpe]
  have hpid1 : (ph1.index == pid) = true := by
    rw [hph1]
    exact hpid
  have hfind1 : t1.phaseStates.find? (fun p => p.index == pid) = some ph1 := by
    rw [ht1]
    exact updateFirst_replace_find? _ _ _ _ hph hpid1
  have hmain := AssistantMessage.completePhase_found t1 pid "" now ph1 hfind1
  have hres1 : t1.phaseResults = t.phaseResults := by rw [ht1]
  refine ⟨AssistantMessage.completedPhaseState now ph1, ?_, rfl, rfl, ?_, ?_⟩
  · rw [hstep]
    exact hmain.1
  · exact AssistantMessage.completeSubtaskStates_all now _
  · rw [hstep, hmain.2, hres1]

/-- One `PhaseState` of phase-tracker.ts with a single uncompleted subtask. -/
def AssistantMessage.phaseOneSub : AssistantMessage.PhaseState :=
  { index := 1
    subtasks := [{ index := 1
                   subtask := { index := 1, description := "s", completed := false } }]
    complete := false
    status := "in-progress" }

/-- A phase-tracker.ts tracker holding exactly `phaseOneSub`. -/
def AssistantMessage.trackerOneSub : AssistantMessage.Tracker :=
  { phaseStates := [AssistantMessage.phaseOneSub]
    currentPhaseIndex := 0
    phaseResults := [] }

/-- Witness for C9: completing the only subtask of `trackerOneSub`'s phase
auto-completes the phase and appends one `PhaseResult`. -/
theorem AssistantMessage.completeSubtask_autocompletes_witness :
    (AssistantMessage.trackerOneSub.phaseStates.find? (fun p => p.index == 1) =
      some AssistantMessage.phaseOneSub) ∧
    ((AssistantMessage.phaseOneSub.subtasks.find? (fun s => s.index == 1)).isSome = true) ∧
    (∀ st ∈ updateFirst (fun s => s.index == 1)
        (AssistantMessage.markSubtaskDone (some "done") 9)
        AssistantMessage.phaseOneSub.subtasks,
      st.subtask.completed = true) ∧
    (∃ ph', (AssistantMessage.completeSubtask
          AssistantMessage.trackerOneSub 1 1 (some "done") 9).phaseStates.find?
        (fun p => p.index == 1) = some ph' ∧
      ph'.complete = true ∧ ph'.status = "completed" ∧
      (∀ st ∈ ph'.subtasks, st.subtask.completed = true) ∧
      (AssistantMessage.completeSubtask
          AssistantMessage.trackerOneSub 1 1 (some "done") 9).phaseResults.length =
        AssistantMessage.trackerOneSub.phaseResults.length + 1) :=
  ⟨by decide, by decide, by decide,
    AssistantMessage.completeSubtask_autocompletes
      AssistantMessage.trackerOneSub 1 1 (some "done") 9 AssistantMessage.phaseOneSub
      (by decide) (by decide) (by decide)⟩

/-- C10: per-phase operations called with an id that matches no registered
`PhaseState` — `completePhase`/`updateTaskIdPhase` of the planning tracker
with an unknown `phaseId`, and `completeSubtask` of the assistant-message
tracker with an unknown phase id or an unknown subtask id — raise no error
and return the tracker completely unchanged. -/
theorem unknownIds_noop (t : Planning.PhaseTracker)
    (t2 : AssistantMessage.Tracker) (pid sid : Int) (tid : String)
    (res : Option String) (now now2 : Int) :
    ((∀ ps ∈ t.phaseStates, ps.index ≠ pid) →
      t.completePhase pid now = t ∧ t.updateTaskIdPhase pid tid = t) ∧
    ((∀ p ∈ t2.phaseStates, p.index ≠ pid) →
      AssistantMessage.completeSubtask t2 pid sid res now2 = t2) ∧
    (∀ ph, t2.phaseStates.find? (fun p => p.index == pid) = some ph →
      (∀ s ∈ ph.subtasks, s.index ≠ sid) →
      AssistantMessage.completeSubtask t2 pid sid res now2 = t2) := by
  refine ⟨?_, ?_, ?_⟩
  · intro h
    have hn : t.phaseStates.find? (fun p => p.index == pid) = none :=
      List.find?_eq_none.mpr (fun ps hmem => by simpa using h ps hmem)
    constructor
    · unfold Planning.PhaseTracker.completePhase
      rw [hn]
    · unfold Planning.PhaseTracker.updateTaskIdPhase
      rw [hn]
  · intro h
    have hn : t2.phaseStates.find? (fun p => p.index == pid) = none :=
      List.find?_eq_none.mpr (fun ps hmem => by simpa using h ps hmem)
    unfold AssistantMessage.completeSubtask
    rw [hn]
  · intro ph hph h
    have hn : ph.subtasks.find? (fun s => s.index == sid) = none :=
      List.find?_eq_none.mpr (fun s hmem => by simpa using h s hmem)
    unfold AssistantMessage.completeSubtask
    rw [hph]
    dsimp only
    rw [hn]

/-- A one-phase planning tracker used to evaluate the unknown-id no-ops. -/
def Planning.trackerK : Planning.PhaseTracker :=
  { projOverview := "o", executionPlan := "p", parsedProjOverview := {}
    phaseStates := [{ index := 0, status := Planning.PhaseStatus.pending }]
    currentPhaseIndex := 0, isRestored := false }

/-- Witness for C10: on concrete one-phase trackers, `completePhase 99`,
`updateTaskIdPhase 99` and `completeSubtask` with unknown phase id 99 or
unknown subtask id 99 all return the tracker unchanged. -/
theorem unknownIds_noop_witness :
    (∀ ps ∈ Planning.trackerK.phaseStates, ps.index ≠ 99) ∧
    (Planning.trackerK.completePhase 99 5 = Planning.trackerK ∧
      Planning.trackerK.updateTaskIdPhase 99 "x" = Planning.trackerK) ∧
    (AssistantMessage.completeSubtask AssistantMessage.trackerOneSub 99 1 none 5 =
      AssistantMessage.trackerOneSub) ∧
    (AssistantMessage.completeSubtask AssistantMessage.trackerOneSub 1 99 none 5 =
      AssistantMessage.trackerOneSub) :=
  ⟨by decide,
    (unknownIds_noop Planning.trackerK AssistantMessage.trackerOneSub 99 1 "x" none 5 5).1
      (by decide),
    (unknownIds_noop Planning.trackerK AssistantMessage.trackerOneSub 99 1 "x" none 5 5).2.1
      (by decide),
    (unknownIds_noop Planning.trackerK AssistantMessage.trackerOneSub 1 99 "x" none 5 5).2.2
      AssistantMessage.phaseOneSub (by decide) (by decide)⟩

namespace Unified

/-- `SubtaskState` interface of unified-phase-tracker.ts. -/
structure SubtaskState where
  id : Option String := none
  description : String
  completed : Bool
  type : Option String := none
  result : Option String := none
  startTime : Option Int := none
  endTime : Option Int := none
deriving Repr, DecidableEq

/-- `PhaseState` interface of unified-phase-tracker.ts (shared by its legacy
and improved trackers). -/
structure PhaseState where
  id : Int
  prompt : String := ""
  subtasks : List SubtaskState := []
  complete : Bool
  paths : List String := []
  status : Option String := none
  index : Option Int := none
  phase_prompt : Option String := none
  startTime : Option Int := none
  endTime : Option Int := none
  artifacts : List String := []
  dependencies : Option (List Int) := none
deriving Repr, DecidableEq

/-- The dependency test of `executeParallel`: a remaining phase is
extractable when it has no `dependencies` field, an empty one, or every
dependency id resolves to a phase whose `complete` flag is set.  (The
source's non-null assertion on the phase lookup cannot fail because
`remaining` is built from the phases' own ids.) -/
def depsMet (phases : List PhaseState) (phaseId : Int) : Bool :=
  match phases.find? (fun p => p.id == phaseId) with
  | none => false
  | some phase =>
    match phase.dependencies with
    | none => true
    | some deps => deps.isEmpty || deps.all fun depId =>
        match phases.find? (fun p => p.id == depId) with
        | none => false
        | some dep => dep.complete

/-- A non-empty positive filtrate forces the negative filtrate to shrink. -/
theorem filter_not_length_lt {α : Type} (p : α → Bool) (l : List α)
    (h : l.filter p ≠ []) :
    (l.filter (fun a => !p a)).length < l.length := by
  induction l with
  | nil => simp at h
  | cons x xs ih =>
    by_cases hx : p x = true
    · have hle := List.length_filter_le (fun a => !p a) xs
      have hfil : (x :: xs).filter (fun a => !p a) = xs.filter (fun a => !p a) := by
        simp [List.filter_cons, hx]
      rw [hfil, List.length_cons]
      omega
    · have hx' : p x = false := by simpa using hx
      have hxs : xs.filter p ≠ [] := by
        simpa [List.filter_cons, hx'] using h
      have hlt := ih hxs
      have hfil : (x :: xs).filter (fun a => !p a) = x :: xs.filter (fun a => !p a) := by
        simp [List.filter_cons, hx']
      rw [hfil, List.length_cons, List.length_cons]
      omega

/-- The batch-extraction loop of `executeParallel`: repeatedly extract the
remaining phase ids whose dependencies are met into a group; when no id can
be extracted while some remain, stop and report the stuck set (the source
logs "Dependency cycle detected" and breaks).  Returns the group list and
`some stuckSet` when a cycle was declared, `none` otherwise. -/
def extractGroups (phases : List PhaseState) (remaining : List Int) :
    List (List Int) × Option (List Int) :=
  if remaining = [] then ([], none)
  else
    if hg : remaining.filter (depsMet phases) = [] then ([], some remaining)
    else
      let rest := remaining.filter fun id => !(depsMet phases id)
      let r := extractGroups phases rest
      (remaining.filter (depsMet phases) :: r.1, r.2)
termination_by remaining.length
decreasing_by
  exact filter_not_length_lt (depsMet phases) remaining hg

/-- `executeParallel`'s grouping pass over the tracker's phases:
`remaining` starts as the set (insertion-ordered, deduplicated) of all
phase ids. -/
def executeParallelGroups (phases : List PhaseState) :
    List (List Int) × Option (List Int) :=
  extractGroups phases ((phases.map fun p => p.id).eraseDups)

/-- Fuel-indexed form of the stuck-set property of `extractGroups`. -/
theorem extractGroups_stuck_aux :
    ∀ (n : Nat) (phases : List PhaseState) (remaining : List Int),
      remaining.length ≤ n →
      ∀ (groups : List (List Int)) (s : List Int),
        extractGroups phases remaining = (groups, some s) →
        s ≠ [] ∧ (∀ id ∈ s, depsMet phases id = false) ∧
        (∀ g ∈ groups, ∀ id ∈ g, id ∉ s) := by
  intro n
  induction n with
  | zero =>
    intro phases remaining hlen groups s hs
    have hrem : remaining = [] := List.length_eq_zero.mp (Nat.le_zero.mp hlen)
    rw [extractGroups, if_pos hrem] at hs
    simp at hs
  | succ n ih =>
    intro phases remaining hlen groups s hs
    by_cases hrem : remaining = []
    · rw [extractGroups, if_pos hrem] at hs
      simp at hs
    · rw [extractGroups, if_neg hrem] at hs
      by_cases hg : remaining.filter (depsMet phases) = []
      · rw [dif_pos hg] at hs
        rw [Prod.mk.injEq] at hs
        obtain ⟨hgs, hss⟩ := hs
        obtain rfl : remaining = s := by
          simpa using hss
        refine ⟨hrem, ?_, ?_⟩
        · intro id hid
          have := List.filter_eq_nil_iff.mp hg id hid
          simpa using this
        · intro g hgm
          rw [← hgs] at hgm
          simp at hgm
      · rw [dif_neg hg] at hs
        dsimp only at hs
        rw [Prod.mk.injEq] at hs
        obtain ⟨hgs, hss⟩ := hs
        have hlt : (remaining.filter fun id => !(depsMet phases id)).length ≤ n := by
          have := filter_not_length_lt (depsMet phases) remaining hg
          omega
        have heq : extractGroups phases
            (remaining.filter fun id => !(depsMet phases id)) =
            ((extractGroups phases
              (remaining.filter fun id => !(depsMet phases id))).1, some s) := by
          rw [← hss]
        have ihm := ih phases (remaining.filter fun id => !(depsMet phases id)) hlt
          (extractGroups phases (remaining.filter fun id => !(depsMet phases id))).1 s heq
        refine ⟨ihm.1, ihm.2.1, ?_⟩
        intro g hgm id hid hins
        rw [← hgs] at hgm
        rcases List.mem_cons.mp hgm with hghead | hgtail
        · subst hghead
          have hdm : depsMet phases id = true := (List.mem_filter.mp hid).2
          have hdf := ihm.2.1 id hins
          rw [hdm] at hdf
          exact absurd hdf (by decide)
        · exact ihm.2.2 g hgtail id hid hins

end Unified

/-- C6: the batch-extraction loop of `executeParallel` is a terminating
function (`extractGroups` is total by well-founded recursion on the shrinking
remaining set), and whenever it stops with phases still remaining because none
of them has all dependencies complete, it reports that stuck set — non-empty,
none of its members extractable — and admits none of its members to any
execution batch; moreover if already at the start no phase is extractable
while phases remain, it immediately reports the whole remaining set with no
batch formed. -/
theorem Unified.executeParallel_cycle_terminates (phases : List Unified.PhaseState) :
    (∀ s, (Unified.executeParallelGroups phases).2 = some s →
      s ≠ [] ∧ (∀ id ∈ s, Unified.depsMet phases id = false) ∧
      (∀ g ∈ (Unified.executeParallelGroups phases).1, ∀ id ∈ g, id ∉ s)) ∧
    ((phases.map fun p => p.id).eraseDups ≠ [] →
      (∀ id ∈ (phases.map fun p => p.id).eraseDups,
        Unified.depsMet phases id = false) →
      Unified.executeParallelGroups phases =
        ([], some ((phases.map fun p => p.id).eraseDups))) := by
  constructor
  · intro s hs
    have heq : Unified.extractGroups phases ((phases.map fun p => p.id).eraseDups) =
        ((Unified.executeParallelGroups phases).1, some s) := by
      rw [← hs]
      rfl
    exact Unified.extractGroups_stuck_aux
      ((phases.map fun p => p.id).eraseDups).length phases
      ((phases.map fun p => p.id).eraseDups) le_rfl
      (Unified.executeParallelGroups phases).1 s heq
  · intro hne hall
    unfold Unified.executeParallelGroups
    rw [Unified.extractGroups, if_neg hne,
      dif_pos (List.filter_eq_nil_iff.mpr fun id hid => by simp [hall id hid])]

/-- Two mutually dependent incomplete phases: a dependency cycle. -/
def Unified.cyclicPhases : List Unified.PhaseState :=
  [{ id := 1, complete := false, dependencies := some [2] },
   { id := 2, complete := false, dependencies := some [1] }]

/-- Concrete evaluation of the grouping pass on the cyclic pair: no batch is
formed and the stuck set `[1, 2]` is reported. -/
theorem Unified.cyclicPhases_eval :
    Unified.executeParallelGroups Unified.cyclicPhases = ([], some [1, 2]) := by
  unfold Unified.executeParallelGroups
  rw [Unified.extractGroups, if_neg (by decide), dif_pos (by decide)]
  decide

/-- Witness for C6: on the cyclic pair the scheduler terminates, reports the
non-empty stuck set `[1, 2]` with no member extractable, and admits no phase
to any batch. -/
theorem Unified.executeParallel_cycle_terminates_witness :
    ((Unified.executeParallelGroups Unified.cyclicPhases).2 = some [1, 2]) ∧
    (([1, 2] : List Int) ≠ [] ∧
      (∀ id ∈ ([1, 2] : List Int),
        Unified.depsMet Unified.cyclicPhases id = false) ∧
      (∀ g ∈ (Unified.executeParallelGroups Unified.cyclicPhases).1,
        ∀ id ∈ g, id ∉ ([1, 2] : List Int))) ∧
    ((Unified.cyclicPhases.map fun p => p.id).eraseDups ≠ [] ∧
      Unified.executeParallelGroups Unified.cyclicPhases =
        ([], some ((Unified.cyclicPhases.map fun p => p.id).eraseDups))) :=
  ⟨by rw [Unified.cyclicPhases_eval],
    (Unified.executeParallel_cycle_terminates Unified.cyclicPhases).1 [1, 2]
      (by rw [Unified.cyclicPhases_eval]),
    ⟨by decide,
      (Unified.executeParallel_cycle_terminates Unified.cyclicPhases).2
        (by decide) (by decide)⟩⟩

namespace Planning

/-- JavaScript `parseInt(s, 10)`: skip leading whitespace, read an optional
sign and then leading decimal digits, ignoring any trailing garbage;
`none` models `NaN` (no digit found). -/
def jsParseInt (s : String) : Option Int :=
  let core : List Char → Option Int := fun ds =>
    let digits := ds.takeWhile Char.isDigit
    if digits.isEmpty then none
    else some ((digits.foldl (fun n c => n * 10 + (c.toNat - 48)) 0 : Nat) : Int)
  match s.toList.dropWhile Char.isWhitespace with
  | '-' :: rest => (core rest).map (fun n => -n)
  | '+' :: rest => core rest
  | cs => core cs

/-- ASCII upper-casing of one character (`String.prototype.toUpperCase` on
the ASCII documents at hand). -/
def jsToUpperChar (c : Char) : Char :=
  if 'a' ≤ c ∧ c ≤ 'z' then Char.ofNat (c.toNat - 32) else c

/-- ASCII `toUpperCase`. -/
def jsToUpper (s : String) : String :=
  String.mk (s.toList.map jsToUpperChar)

/-- One `<phase>` block of a planning document, represented by the values
`extractTag` pulls out of it for the fields that determine indices and
ordering: `extractTag "number"`, `extractTag "execution_order"` and
`extractTag "title"` (an absent tag yields `""`). -/
structure PhaseBlock where
  numberStr : String
  exeOrderStr : String
  title : String
deriving Repr, DecidableEq

/-- The index/ordering part of one parsed phase produced by `parsePhaseNew`
(`none` models the `NaN` a failed `parseInt` leaves behind). -/
structure ParsedPhaseHeader where
  phaseIdx : Option Int
  exeOrderIdx : Option Int
  title : String
deriving Repr, DecidableEq

/-- The index computation of `parsePhaseNew` for one block: a non-empty
number field upper-casing to "FINAL" yields `phaseIdx = blockCount`, any
other non-empty one is `parseInt`-ed, and an empty one defaults to
`phases.length + 1` (`phasesLen` = blocks successfully processed so far);
the execution order defaults to `phaseIdx`, with the sentinel "LAST"
(exact match) also mapping to `blockCount`. -/
def parseBlockHeader (blockCount phasesLen : Nat) (b : PhaseBlock) :
    ParsedPhaseHeader :=
  let phaseIdx : Option Int :=
    if b.numberStr ≠ "" then
      if jsToUpper b.numberStr = "FINAL" then some (blockCount : Int)
      else jsParseInt b.numberStr
    else some ((phasesLen : Int) + 1)
  let exeOrderIdx : Option Int :=
    if b.exeOrderStr ≠ "" then
      if b.exeOrderStr = "LAST" then some (blockCount : Int)
      else jsParseInt b.exeOrderStr
    else phaseIdx
  { phaseIdx := phaseIdx, exeOrderIdx := exeOrderIdx, title := b.title }

/-- The block loop of `parsePhaseNew` (no block in this model throws, so
`phasesLen` advances with the position). -/
def parseBlocksAux (blockCount pos : Nat) : List PhaseBlock → List ParsedPhaseHeader
  | [] => []
  | b :: bs => parseBlockHeader blockCount pos b :: parseBlocksAux blockCount (pos + 1) bs

/-- The sort comparator `(a, b) => a.exeOrderIdx - b.exeOrderIdx` on the
`NaN`-free domain (a `NaN` comparator result makes the engine's sort
behaviour unspecified; the model is used on fully parsed documents). -/
def exeOrderLe (a b : ParsedPhaseHeader) : Bool :=
  match a.exeOrderIdx, b.exeOrderIdx with
  | some x, some y => x ≤ y
  | _, _ => true

/-- Stable insertion behind all already-placed smaller-or-equal elements,
matching the stability guarantee of `Array.prototype.sort`. -/
def insertByExeOrder (p : ParsedPhaseHeader) :
    List ParsedPhaseHeader → List ParsedPhaseHeader
  | [] => [p]
  | q :: qs => if exeOrderLe q p then q :: insertByExeOrder p qs else p :: q :: qs

/-- Stable sort by execution order (`phases.sort((a, b) => a.exeOrderIdx -
b.exeOrderIdx)`). -/
def sortByExeOrder (l : List ParsedPhaseHeader) : List ParsedPhaseHeader :=
  l.foldl (fun acc p => insertByExeOrder p acc) []

/-- `parsePhaseNew` restricted to the index/ordering content of its blocks:
compute each block's indices, then sort by execution order. -/
def parsePhaseNewModel (blocks : List PhaseBlock) : List ParsedPhaseHeader :=
  sortByExeOrder (parseBlocksAux blocks.length 0 blocks)

/-- Membership through stable insertion. -/
theorem mem_insertByExeOrder (p q : ParsedPhaseHeader)
    (l : List ParsedPhaseHeader) :
    q ∈ insertByExeOrder p l ↔ q = p ∨ q ∈ l := by
  induction l with
  | nil => simp [insertByExeOrder]
  | cons x xs ih =>
    rw [insertByExeOrder]
    by_cases h : exeOrderLe x p = true
    · rw [if_pos h]
      simp only [List.mem_cons, ih]
      tauto
    · rw [if_neg h]
      simp only [List.mem_cons]

/-- The stable sort permutes membership. -/
theorem mem_sortByExeOrder (l : List ParsedPhaseHeader)
    (q : ParsedPhaseHeader) : q ∈ sortByExeOrder l ↔ q ∈ l := by
  have general : ∀ (l acc : List ParsedPhaseHeader),
      q ∈ l.foldl (fun acc p => insertByExeOrder p acc) acc ↔ q ∈ acc ∨ q ∈ l := by
    intro l
    induction l with
    | nil => simp
    | cons x xs ih =>
      intro acc
      rw [List.foldl_cons, ih, mem_insertByExeOrder]
      simp only [List.mem_cons]
      tauto
  rw [sortByExeOrder, general]
  simp

/-- Any member block contributes its parsed header at some running length. -/
theorem parseBlocksAux_mem (blockCount : Nat) (b : PhaseBlock) :
    ∀ (bs : List PhaseBlock) (pos : Nat), b ∈ bs →
      ∃ k, parseBlockHeader blockCount k b ∈ parseBlocksAux blockCount pos bs := by
  intro bs
  induction bs with
  | nil =>
    intro pos h
    simp at h
  | cons x xs ih =>
    intro pos h
    rcases List.mem_cons.mp h with rfl | htail
    · exact ⟨pos, List.mem_cons_self _ _⟩
    · obtain ⟨k, hk⟩ := ih (pos + 1) htail
      exact ⟨k, List.mem_cons_of_mem _ hk⟩

end Planning

/-- C7 amended: every block with a non-empty number field upper-casing to
the sentinel "FINAL" is assigned `phaseIdx = blockCount` (the total number of
phase blocks), and in the scenario of three blocks numbered 1, 2, FINAL the
FINAL block sorts last with `phaseIdx = 3`; but the FINAL block is not placed
last in general — a sibling block whose own execution order reaches
blockCount or beyond sorts after it. -/
theorem Planning.parsePhaseNew_final_index :
    (∀ (blocks : List Planning.PhaseBlock) (b : Planning.PhaseBlock),
      b ∈ blocks → b.numberStr ≠ "" → Planning.jsToUpper b.numberStr = "FINAL" →
      ∃ pp ∈ Planning.parsePhaseNewModel blocks,
        pp.title = b.title ∧ pp.phaseIdx = some (blocks.length : Int)) ∧
    Planning.parsePhaseNewModel
        [⟨"1", "", "P1"⟩, ⟨"2", "", "P2"⟩, ⟨"FINAL", "", "PF"⟩] =
      [⟨some 1, some 1, "P1"⟩, ⟨some 2, some 2, "P2"⟩, ⟨some 3, some 3, "PF"⟩] := by
  constructor
  · intro blocks b hmem hne hfin
    obtain ⟨k, hk⟩ := Planning.parseBlocksAux_mem blocks.length b blocks 0 hmem
    refine ⟨Planning.parseBlockHeader blocks.length k b, ?_, rfl, ?_⟩
    · rw [Planning.parsePhaseNewModel, Planning.mem_sortByExeOrder]
      exact hk
    · unfold Planning.parseBlockHeader
      rw [if_pos hne, if_pos hfin]
  · rfl

/-- C7 counterexample: two blocks numbered 3 and FINAL.  The FINAL block is
assigned `phaseIdx = 2` (the block count) as specified, but it sorts FIRST,
not last: the sibling block's own number 3 gives it the larger execution
order, so the claim's "placed last" is false. -/
theorem Planning.parsePhaseNew_final_not_last :
    Planning.parsePhaseNewModel [⟨"3", "", "A"⟩, ⟨"FINAL", "", "Z"⟩] =
      [⟨some 2, some 2, "Z"⟩, ⟨some 3, some 3, "A"⟩] ∧
    ((Planning.parsePhaseNewModel [⟨"3", "", "A"⟩, ⟨"FINAL", "", "Z"⟩]).getLast?.map
      (·.title)) = some "A" ∧
    "A" ≠ "Z" :=
  ⟨rfl, rfl, by decide⟩

/-- Witness for the amended C7 statement: the universal FINAL-index part
evaluated on the 1, 2, FINAL scenario. -/
theorem Planning.parsePhaseNew_final_index_witness :
    ((⟨"FINAL", "", "PF"⟩ : Planning.PhaseBlock) ∈
      ([⟨"1", "", "P1"⟩, ⟨"2", "", "P2"⟩, ⟨"FINAL", "", "PF"⟩] :
        List Planning.PhaseBlock)) ∧
    ("FINAL" : String) ≠ "" ∧
    Planning.jsToUpper "FINAL" = "FINAL" ∧
    (∃ pp ∈ Planning.parsePhaseNewModel
        [⟨"1", "", "P1"⟩, ⟨"2", "", "P2"⟩, ⟨"FINAL", "", "PF"⟩],
      pp.title = "PF" ∧ pp.phaseIdx = some 3) :=
  ⟨by decide, by decide, by decide,
    Planning.parsePhaseNew_final_index.1
      [⟨"1", "", "P1"⟩, ⟨"2", "", "P2"⟩, ⟨"FINAL", "", "PF"⟩]
      ⟨"FINAL", "", "PF"⟩ (by decide) (by decide) (by decide)⟩
